import Mathlib

/-!
# kortschak/wol: the `wake` command and the `wake_server` HTTP handler

A shallow embedding of `cmd/wake/wake.go` and `cmd/wake_server/wake.go`.

* A Go `string` / `[]byte` is a list of bytes, each byte a `Nat`; a nil slice is `[]`.
* Calls that leave the repository (`url.Parse`, `net.ResolveUDPAddr`, `net.ParseMAC`,
  `net.SplitHostPort`, running `ip`, `wol.Wake`) are fields of an environment `Env`;
  every theorem holds for every environment.
* `wol.Wake` is stateful: it takes and returns a state of the outside world.
* Effects are recorded: the wake calls with their results, the commands run, the bytes
  written to the response and the diagnostics.
-/

set_option autoImplicit false
set_option maxRecDepth 100000

namespace Wol

/-! ## Go strings -/

/-- A Go string (or byte slice): its bytes. -/
abbrev GoString := List Nat

/-- The UTF-8 encoding of a character, as Go source literals are encoded. -/
def utf8 (c : Char) : List Nat :=
  let n := c.toNat
  if n < 0x80 then [n]
  else if n < 0x800 then [0xC0 + n / 0x40, 0x80 + n % 0x40]
  else if n < 0x10000 then [0xE0 + n / 0x1000, 0x80 + n / 0x40 % 0x40, 0x80 + n % 0x40]
  else [0xF0 + n / 0x40000, 0x80 + n / 0x1000 % 0x40, 0x80 + n / 0x40 % 0x40, 0x80 + n % 0x40]

/-- The bytes of a string literal. -/
def str (s : String) : GoString := s.toList.flatMap utf8

/-! ## Package `strings` / `bytes` (standard library, for a non-empty separator) -/

/-- Go `strings.HasPrefix` / `bytes.HasPrefix`. -/
def HasPrefix : GoString → GoString → Bool
  | _, [] => true
  | [], _ :: _ => false
  | c :: s, d :: p => c == d && HasPrefix s p

/-- Go `strings.TrimPrefix`. -/
def TrimPrefix (s pre : GoString) : GoString :=
  if HasPrefix s pre then s.drop pre.length else s

/-- Go `strings.Index`: the byte index of the first instance of `substr` in `s`, or -1. -/
def Index : GoString → GoString → Int
  | [], substr => if substr = [] then 0 else -1
  | c :: t, substr =>
    if HasPrefix (c :: t) substr then 0
    else
      let r := Index t substr
      if r < 0 then -1 else r + 1

/-- Go `strings.Contains`: `Index(s, substr) >= 0`. -/
def Contains (s substr : GoString) : Bool := decide (Index s substr ≥ 0)

/-- The loop of Go `strings.genSplit` for a non-empty separator: at most `k` cuts. -/
def genSplit (sep : GoString) : Nat → GoString → List GoString
  | 0, s => [s]
  | k + 1, s =>
    let m := Index s sep
    if m < 0 then [s]
    else s.take m.toNat :: genSplit sep k (s.drop (m.toNat + sep.length))

/-- Go `strings.SplitN` (non-empty `sep`, `n ≥ 0`): at most `n` substrings. -/
def SplitN (s sep : GoString) (n : Nat) : List GoString :=
  if n = 0 then [] else genSplit sep (min n (s.length + 1) - 1) s

/-- Go `strings.Split` (non-empty `sep`): all substrings; `Count(s, sep) + 1 ≤ len(s) + 1`. -/
def Split (s sep : GoString) : List GoString := genSplit sep s.length s

/-! ## Package `encoding/hex` (standard library) -/

/-- Go `encoding/hex` `reverseHexTable`: the value of a hex digit, `0xff` for any other byte. -/
def reverseHexTable (b : Nat) : Nat :=
  if 0x30 ≤ b ∧ b ≤ 0x39 then b - 0x30
  else if 0x41 ≤ b ∧ b ≤ 0x46 then b - 0x41 + 10
  else if 0x61 ≤ b ∧ b ≤ 0x66 then b - 0x61 + 10
  else 0xff

/-- The errors of `encoding/hex`. -/
inductive HexError where
  | InvalidByteError (b : Nat)
  | ErrLength
  deriving DecidableEq, Repr

/-- Go `hex.DecodeString`: the bytes decoded so far and the error, if any. -/
def DecodeString : GoString → List Nat × Option HexError
  | p :: q :: rest =>
    let a := reverseHexTable p
    let b := reverseHexTable q
    if a > 0x0f then ([], some (.InvalidByteError p))
    else if b > 0x0f then ([], some (.InvalidByteError q))
    else
      let r := DecodeString rest
      ((((a <<< 4) % 256) ||| b) :: r.1, r.2)
  | [p] =>
    if reverseHexTable p > 0x0f then ([], some (.InvalidByteError p))
    else ([], some .ErrLength)
  | [] => ([], none)

/-! ## Package `net`: `HardwareAddr` -/

/-- Go `net.HardwareAddr`, a byte slice. -/
abbrev HardwareAddr := List Nat

/-- The digit of `hexDigit = "0123456789abcdef"` at index `n`. -/
def hexDigit (n : Nat) : Nat := if n < 10 then 0x30 + n else 0x61 + (n - 10)

/-- Go `HardwareAddr.String`: lower-case hex bytes separated by colons. -/
def HardwareAddr.String : HardwareAddr → GoString
  | [] => []
  | [b] => [hexDigit (b >>> 4), hexDigit (b &&& 0xF)]
  | b :: c :: rest =>
    hexDigit (b >>> 4) :: hexDigit (b &&& 0xF) :: 0x3a :: HardwareAddr.String (c :: rest)

/-! ## The outside world -/

/-- An `error` value of a call outside the repository: its text. -/
abbrev Error := GoString

deriving instance DecidableEq for Except

/-- A parsed URL: `u.Path` and, for each key, `u.Query()[key]`. -/
structure URL where
  Path : GoString
  Query : GoString → List GoString

/-- The calls that leave the repository. `σ` is the state of the world that `wol.Wake`
acts on, `Addr` the type of a resolved `*net.UDPAddr`. -/
structure Env (σ Addr : Type) where
  /-- Go `url.Parse`; `none` is an error. -/
  urlParse : GoString → Option URL
  /-- Go `net.ResolveUDPAddr("udp", s)`; an error carries its text. -/
  ResolveUDPAddr : GoString → Except Error Addr
  /-- Go `net.ParseMAC`: both results, the address and the error (`none` is nil). -/
  ParseMAC : GoString → HardwareAddr × Option Error
  /-- Go `net.SplitHostPort`. -/
  SplitHostPort : GoString → Except Error (GoString × GoString)
  /-- Running `ip route show proto kernel dev <host>` with stdout captured:
  the error of `cmd.Run()` (`none` is nil) and the captured output. -/
  runIP : GoString → Option Error × GoString
  /-- The library call `wol.Wake(mac, pw, laddr, raddr)`: its error and the new state. -/
  Wake : σ → HardwareAddr → List Nat → Option Addr → Addr → Option Error × σ

/-- The arguments of one call of `wol.Wake`. -/
structure WakeCall (Addr : Type) where
  mac : HardwareAddr
  pw : List Nat
  laddr : Option Addr
  raddr : Addr
  deriving DecidableEq, Repr

/-- The errors made in `wake_server` itself, by `parameter` and `route`. -/
inductive ParamError where
  /-- The text `too many parameters: %v`. -/
  | tooManyParameters (s : List GoString)
  /-- The error of `net.SplitHostPort`, returned as it is. -/
  | splitHostPort (err : Error)
  /-- The text `ip: %v`. -/
  | ip (err : Error)
  /-- The text `no src selector: %q`. -/
  | noSrcSelector (host : GoString)
  deriving DecidableEq, Repr

/-- A line of diagnostics (`os.Stderr`, and the one `fmt.Printf`). -/
inductive Msg where
  | couldNotParseRequest
  | mustSpecifyTarget
  | usage
  | invalidParameter (err : ParamError)
  | couldNotParseRemote (remote : GoString) (err : Error)
  | couldNotParseLocal (loc : GoString) (err : Error)
  | failedToParsePassword (err : HexError)
  | invalidPassword (pass : GoString)
  | couldNotParseMAC (m : GoString) (err : Error)
  | errorAttemptingToWake (mac : HardwareAddr) (err : Error)
  | sentWakePacket (mac : HardwareAddr)
  deriving DecidableEq, Repr

/-! ## The password block, the same in both programs

`cmd/wake/wake.go` lines 43-55 and `cmd/wake_server/wake.go` lines 100-112. -/

/-- The block `var pw []byte; switch len(pass) { case 0: ... case 12: ... default: ... }`:
the password, or the message printed before the program gives up. -/
def password (pass : GoString) : Except Msg (List Nat) :=
  if pass.length = 0 then .ok []
  else if pass.length = 12 then
    let r := DecodeString pass
    match r.2 with
    | some err => .error (.failedToParsePassword err)
    | none => .ok r.1
  else .error (.invalidPassword pass)

/-! ## `cmd/wake_server/wake.go` -/

/-- The function `parameter`. -/
def parameter (s : List GoString) : Except ParamError GoString :=
  if s.length = 0 then .ok []
  else if s.length > 1 then .error (.tooManyParameters s)
  else .ok (s.headD [])

/-- The constant `srcSel`. -/
def srcSel : GoString := str " src "

/-- The command line of `exec.Command("ip", "route", "show", "proto", "kernel", "dev", host)`. -/
def ipCommand (host : GoString) : List GoString :=
  [str "ip", str "route", str "show", str "proto", str "kernel", str "dev", host]

/-- What `route` returns, and the commands it ran. -/
structure Routed where
  addr : GoString
  err : Option ParamError
  ran : List (List GoString)
  deriving DecidableEq, Repr

/-- The function `route`. -/
def route {σ Addr : Type} (env : Env σ Addr) (dev : GoString) : Routed :=
  let host := dev
  match (if Contains host (str ":") then env.SplitHostPort host
         else (.ok (host, []) : Except Error (GoString × GoString))) with
  | .error err => ⟨dev, some (.splitHostPort err), []⟩
  | .ok (host, port) =>
    let cmd := ipCommand host
    let res := env.runIP host
    let buf := res.2
    match res.1 with
    | some err =>
      if HasPrefix buf (str "Cannot find device") then ⟨dev, none, [cmd]⟩
      else ⟨[], some (.ip err), [cmd]⟩
    | none =>
      let host := buf
      let idx := Index host srcSel
      if idx < 0 then ⟨[], some (.noSrcSelector host), [cmd]⟩
      else
        let host := (SplitN (host.drop (idx.toNat + srcSel.length)) (str " ") 2).headD []
        let port := if port = [] then str "0" else port
        ⟨host ++ str ":" ++ port, none, [cmd]⟩

/-- An HTTP request: its `RequestURI`. -/
structure Request where
  RequestURI : GoString

/-- What one run of `wakeHander` did: the bytes written to the response, the calls of
`wol.Wake` in order with what each returned, the commands run, the diagnostics, and the
state of the world afterwards. -/
structure Response (σ Addr : Type) where
  body : GoString
  log : List (WakeCall Addr × Option Error)
  ran : List (List GoString)
  diag : List Msg
  state : σ

/-- The arguments of the calls a run made, in order. -/
def Response.calls {σ Addr : Type} (r : Response σ Addr) : List (WakeCall Addr) :=
  r.log.map Prod.fst

/-- The text of `fmt.Fprintf(w, "👋 %s\n", mac)`. -/
def waveLine (mac : HardwareAddr) : GoString := str "👋 " ++ mac.String ++ str "\n"

/-- The loop `for _, m := range macs` of `wakeHander`. -/
def wakeEach {σ Addr : Type} (env : Env σ Addr) (pw : List Nat) (laddr : Option Addr)
    (raddr : Addr) : List GoString → σ → Response σ Addr
  | [], s => ⟨[], [], [], [], s⟩
  | m :: macs, s =>
    let parsed := env.ParseMAC m
    let mac := parsed.1
    match parsed.2 with
    | some err =>
      let r := wakeEach env pw laddr raddr macs s
      { r with diag := .couldNotParseMAC m err :: r.diag }
    | none =>
      let res := env.Wake s mac pw laddr raddr
      match res.1 with
      | some err =>
        let r := wakeEach env pw laddr raddr macs res.2
        { r with log := (⟨mac, pw, laddr, raddr⟩, some err) :: r.log,
                 diag := .errorAttemptingToWake mac err :: r.diag }
      | none =>
        let r := wakeEach env pw laddr raddr macs res.2
        { r with body := waveLine mac ++ r.body,
                 log := (⟨mac, pw, laddr, raddr⟩, none) :: r.log,
                 diag := .sentWakePacket mac :: r.diag }

/-- The function `wakeHander`. -/
def wakeHander {σ Addr : Type} (env : Env σ Addr) (req : Request) (s : σ) : Response σ Addr :=
  match env.urlParse req.RequestURI with
  | none => ⟨[], [], [], [.couldNotParseRequest], s⟩
  | some u =>
    let macs := Split (TrimPrefix u.Path (str "/")) (str ",")
    if macs.length = 0 then ⟨[], [], [], [.mustSpecifyTarget], s⟩
    else
      let values := u.Query
      match parameter (values (str "via")) with
      | .error err => ⟨[], [], [], [.invalidParameter err], s⟩
      | .ok via =>
        let rt := route env via
        match rt.err with
        | some err => ⟨[], [], rt.ran, [.invalidParameter err], s⟩
        | none =>
          let loc := rt.addr
          match parameter (values (str "remote")) with
          | .error err => ⟨[], [], rt.ran, [.invalidParameter err], s⟩
          | .ok remote =>
            let remote := if remote = [] then str "255.255.255.255:9" else remote
            match parameter (values (str "pass")) with
            | .error err => ⟨[], [], rt.ran, [.invalidParameter err], s⟩
            | .ok pass =>
              match env.ResolveUDPAddr remote with
              | .error err => ⟨[], [], rt.ran, [.couldNotParseRemote remote err], s⟩
              | .ok raddr =>
                match (if loc ≠ [] then (env.ResolveUDPAddr loc).map some
                       else (.ok none : Except Error (Option Addr))) with
                | .error err => ⟨[], [], rt.ran, [.couldNotParseLocal loc err], s⟩
                | .ok laddr =>
                  match password pass with
                  | .error msg => ⟨[], [], rt.ran, [msg], s⟩
                  | .ok pw =>
                    let r := wakeEach env pw laddr raddr macs s
                    { r with ran := rt.ran }

/-! ## `cmd/wake/wake.go` -/

/-- The command line of `wake` after `flag.Parse`: each flag as given, if given, and
`flag.Args()`. -/
structure Flags where
  via : Option GoString
  remote : Option GoString
  pass : Option GoString
  args : List GoString

/-- What one run of `wake` did: the exit status, the calls of `wol.Wake` in order with
what each returned, the diagnostics, and the state of the world afterwards. -/
structure Process (σ Addr : Type) where
  exit : Nat
  log : List (WakeCall Addr × Option Error)
  diag : List Msg
  state : σ

/-- The arguments of the calls a run made, in order. -/
def Process.calls {σ Addr : Type} (r : Process σ Addr) : List (WakeCall Addr) :=
  r.log.map Prod.fst

/-- The loop `for _, m := range flag.Args()` of `main`. -/
def mainEach {σ Addr : Type} (env : Env σ Addr) (pw : List Nat) (laddr : Option Addr)
    (raddr : Addr) : List GoString → σ → Process σ Addr
  | [], s => ⟨0, [], [], s⟩
  | m :: args, s =>
    let parsed := env.ParseMAC m
    let mac := parsed.1
    let d₁ : List Msg :=
      match parsed.2 with
      | some err => [.couldNotParseMAC m err]
      | none => []
    let res := env.Wake s mac pw laddr raddr
    let d₂ : List Msg :=
      match res.1 with
      | some err => [.errorAttemptingToWake mac err]
      | none => []
    let r := mainEach env pw laddr raddr args res.2
    { r with log := (⟨mac, pw, laddr, raddr⟩, res.1) :: r.log, diag := d₁ ++ d₂ ++ r.diag }

/-- The function `main` of `cmd/wake`. -/
def main {σ Addr : Type} (env : Env σ Addr) (flags : Flags) (s : σ) : Process σ Addr :=
  let loc := flags.via.getD (str "")
  let remote := flags.remote.getD (str "255.255.255.255:9")
  let pass := flags.pass.getD (str "")
  if flags.args.length = 0 then ⟨1, [], [.mustSpecifyTarget, .usage], s⟩
  else
    match env.ResolveUDPAddr remote with
    | .error err => ⟨1, [], [.couldNotParseRemote remote err], s⟩
    | .ok raddr =>
      match (if loc ≠ [] then (env.ResolveUDPAddr loc).map some
             else (.ok none : Except Error (Option Addr))) with
      | .error err => ⟨1, [], [.couldNotParseLocal loc err], s⟩
      | .ok laddr =>
        match password pass with
        | .error msg => ⟨1, [], [msg], s⟩
        | .ok pw => mainEach env pw laddr raddr flags.args s

/-! ## The words of the claims -/

/-- The path with one leading `/` removed. -/
def withoutLeadingSlash : GoString → GoString
  | 0x2f :: p => p
  | p => p

/-- The comma-separated segments of a request path. -/
def segments (path : GoString) : List GoString := (withoutLeadingSlash path).splitOn 0x2c

/-- The address a segment parses to, when `net.ParseMAC` returns no error. -/
def parsedMAC {σ Addr : Type} (env : Env σ Addr) (m : GoString) : Option HardwareAddr :=
  if (env.ParseMAC m).2 = none then some (env.ParseMAC m).1 else none

/-- The calls `wol.Wake(mac, pw, laddr, raddr)` made one after the other for the
addresses `macs`, from the state `s` of the world: what each call returned, in order,
and the state after the last. -/
def wakeSeries {σ Addr : Type} (env : Env σ Addr) (pw : List Nat) (laddr : Option Addr)
    (raddr : Addr) : List HardwareAddr → σ → List (Option Error) × σ
  | [], s => ([], s)
  | mac :: macs, s =>
    let r := env.Wake s mac pw laddr raddr
    let t := wakeSeries env pw laddr raddr macs r.2
    (r.1 :: t.1, t.2)

/-- The local address `wakeHander` and `main` pass on: nil for an empty string, and
otherwise what `net.ResolveUDPAddr` makes of it. -/
def resolveLocal {σ Addr : Type} (env : Env σ Addr) (loc : GoString) :
    Except Error (Option Addr) :=
  if loc ≠ [] then (env.ResolveUDPAddr loc).map some else .ok none

/-- The remote address string `wakeHander` resolves. -/
def remoteOrDefault (remote : GoString) : GoString :=
  if remote = [] then str "255.255.255.255:9" else remote

/-- The hexadecimal digits, in either case. -/
def IsHexDigit (b : Nat) : Prop := b ∈ str "0123456789abcdef" ∨ b ∈ str "ABCDEF"

instance : DecidablePred IsHexDigit := fun b => by unfold IsHexDigit; infer_instance

/-- The number a hexadecimal digit denotes. -/
def digitValue (b : Nat) : Nat :=
  if b ∈ str "0123456789abcdef" then (str "0123456789abcdef").indexOf b
  else 10 + (str "ABCDEF").indexOf b

/-- The bytes a string of hexadecimal digits denotes, two digits to the byte. -/
def bytesOfDigits : GoString → List Nat
  | p :: q :: rest => (16 * digitValue p + digitValue q) :: bytesOfDigits rest
  | _ => []

/-! ## An environment to run the programs in

`net.ParseMAC` and `net.SplitHostPort` follow the Go standard library; the rest stands
in for the network, the routing table and the `wol` library. -/

/-- Go `net.xtoi`, from the state `n`, `i` of its loop: the number, the bytes consumed, ok. -/
def xtoiLoop : GoString → Nat → Nat → Nat × Nat × Bool
  | [], n, i => if i = 0 then (0, i, false) else (n, i, true)
  | c :: cs, n, i =>
    if reverseHexTable c > 0x0f then (if i = 0 then (0, i, false) else (n, i, true))
    else
      let n := n * 16 + reverseHexTable c
      if n ≥ 0xFFFFFF then (0, i, false) else xtoiLoop cs n (i + 1)

/-- Go `net.xtoi2`: two hex digits, followed by the byte `e` if anything follows. -/
def xtoi2 (s : GoString) (e : Nat) : Nat × Bool :=
  if s.length > 2 ∧ s.getD 2 0 ≠ e then (0, false)
  else
    let r := xtoiLoop (s.take 2) 0 0
    (r.1 % 256, r.2.2 && r.2.1 == 2)

/-- The loop of `net.ParseMAC` over `n` groups `xx` separated by `sep`. -/
def macGroups2 (sep : Nat) : Nat → GoString → Option (List Nat)
  | 0, _ => some []
  | n + 1, s =>
    let r := xtoi2 s sep
    if r.2 then (macGroups2 sep n (s.drop 3)).map (r.1 :: ·) else none

/-- The loop of `net.ParseMAC` over `n` groups `xxxx` separated by `sep`. -/
def macGroups4 (sep : Nat) : Nat → GoString → Option (List Nat)
  | 0, _ => some []
  | n + 1, s =>
    let r₁ := xtoi2 (s.take 2) 0
    let r₂ := xtoi2 (s.drop 2) sep
    if r₁.2 ∧ r₂.2 then (macGroups4 sep n (s.drop 5)).map (fun t => r₁.1 :: r₂.1 :: t)
    else none

/-- Go `net.ParseMAC`. -/
def ParseMAC (s : GoString) : HardwareAddr × Option Error :=
  let fail : HardwareAddr × Option Error :=
    ([], some (str "address " ++ s ++ str ": invalid MAC address"))
  if s.length < 14 then fail
  else if s.getD 2 0 = 0x3a ∨ s.getD 2 0 = 0x2d then
    if (s.length + 1) % 3 ≠ 0 then fail
    else
      let n := (s.length + 1) / 3
      if n ≠ 6 ∧ n ≠ 8 ∧ n ≠ 20 then fail
      else
        match macGroups2 (s.getD 2 0) n s with
        | some hw => (hw, none)
        | none => fail
  else if s.getD 4 0 = 0x2e then
    if (s.length + 1) % 5 ≠ 0 then fail
    else
      let n := 2 * (s.length + 1) / 5
      if n ≠ 6 ∧ n ≠ 8 ∧ n ≠ 20 then fail
      else
        match macGroups4 (s.getD 4 0) (n / 2) s with
        | some hw => (hw, none)
        | none => fail
  else fail

/-- The index of the last byte `c` in `s`, or -1. -/
def LastIndexByte (s : GoString) (c : Nat) : Int :=
  let r := Index s.reverse [c]
  if r < 0 then -1 else (s.length : Int) - 1 - r

/-- Go `net.SplitHostPort`. -/
def SplitHostPort (hostport : GoString) : Except Error (GoString × GoString) :=
  let addrErr (why : String) : Except Error (GoString × GoString) :=
    .error (str "address " ++ hostport ++ str ": " ++ str why)
  let i := LastIndexByte hostport 0x3a
  if i < 0 then addrErr "missing port in address"
  else
    let bracket : Except Error (GoString × Nat × Nat) :=
      if hostport.getD 0 0 = 0x5b then
        let e := Index hostport [0x5d]
        if e < 0 then .error (str "address " ++ hostport ++ str ": missing ']' in address")
        else if e + 1 = hostport.length then
          .error (str "address " ++ hostport ++ str ": missing port in address")
        else if e + 1 = i then .ok ((hostport.take e.toNat).drop 1, 1, e.toNat + 1)
        else if hostport.getD (e.toNat + 1) 0 = 0x3a then
          .error (str "address " ++ hostport ++ str ": too many colons in address")
        else .error (str "address " ++ hostport ++ str ": missing port in address")
      else
        let host := hostport.take i.toNat
        if Index host [0x3a] ≥ 0 then
          .error (str "address " ++ hostport ++ str ": too many colons in address")
        else .ok (host, 0, 0)
    match bracket with
    | .error err => .error err
    | .ok (host, j, k) =>
      if Index (hostport.drop j) [0x5b] ≥ 0 then addrErr "unexpected '[' in address"
      else if Index (hostport.drop k) [0x5d] ≥ 0 then addrErr "unexpected ']' in address"
      else .ok (host, hostport.drop (i.toNat + 1))

/-- The values given to `key` among `pairs` of the form `key=value`, in order, unescaped. -/
def queryValues (pairs : List GoString) (key : GoString) : List GoString :=
  pairs.filterMap fun kv =>
    match SplitN kv (str "=") 2 with
    | [k, v] => if k = key then some v else none
    | [k] => if k = key ∧ k ≠ [] then some [] else none
    | _ => none

/-- A plain reading of a request URI `path?key=value&key=value`: what `url.Parse` and
`URL.Query` give for a URI with a rooted path and no escapes, `+`, `;` or `#`. -/
def plainURL (uri : GoString) : Option URL :=
  match SplitN uri (str "?") 2 with
  | [path, query] => some ⟨path, queryValues (Split query (str "&"))⟩
  | [path] => some ⟨path, fun _ => []⟩
  | _ => none

/-- A resolver that knows no names: a well-formed `host:port` resolves to itself. -/
def literalResolve (s : GoString) : Except Error (GoString × GoString) := SplitHostPort s

/-- A machine with the interfaces `eth0`, which has a route, and `lo`, which has none,
whose `ip` writes its complaint about an unknown device to the captured output. -/
def oneInterface (host : GoString) : Option Error × GoString :=
  if host = str "eth0" then
    (none, str "10.0.0.0/24 scope link src 10.0.0.7 metric 100 \n")
  else if host = str "lo" then (none, str "")
  else (some (str "exit status 1"), str "Cannot find device \"" ++ host ++ str "\"\n")

/-- The same machine with an `ip` that writes its complaints elsewhere: nothing is
captured when the device is unknown. -/
def quietIP (host : GoString) : Option Error × GoString :=
  if host = str "eth0" then
    (none, str "10.0.0.0/24 scope link src 10.0.0.7 metric 100 \n")
  else if host = str "lo" then (none, str "")
  else (some (str "exit status 1"), str "")

/-- An `ip` that lists the route of `eth0` whatever the device name. -/
def everyDevice (_host : GoString) : Option Error × GoString :=
  (none, str "10.0.0.0/24 scope link src 10.0.0.7 metric 100 \n")

/-- A wake library that counts the packets sent and refuses an address that is not six
bytes long. -/
def countingWake (sent : Nat) (mac : HardwareAddr) (_pw : List Nat)
    (_laddr : Option (GoString × GoString)) (_raddr : GoString × GoString) :
    Option Error × Nat :=
  if mac.length = 6 then (none, sent + 1) else (some (str "invalid MAC address"), sent)

/-- The environment of the examples, for a given behaviour of the `ip` command. -/
def testEnv (runIP : GoString → Option Error × GoString) : Env Nat (GoString × GoString) where
  urlParse := plainURL
  ResolveUDPAddr := literalResolve
  ParseMAC := ParseMAC
  SplitHostPort := SplitHostPort
  runIP := runIP
  Wake := countingWake

/-- A wake library over a world that keeps every packet sent, with the arguments of the
call that sent it; it refuses an address that is not six bytes long. -/
def recordingWake (sent : List (WakeCall (GoString × GoString))) (mac : HardwareAddr)
    (pw : List Nat) (laddr : Option (GoString × GoString)) (raddr : GoString × GoString) :
    Option Error × List (WakeCall (GoString × GoString)) :=
  if mac.length = 6 then (none, sent ++ [⟨mac, pw, laddr, raddr⟩])
  else (some (str "invalid MAC address"), sent)

/-- The environment of the examples with the recording wake library. -/
def recordingEnv (runIP : GoString → Option Error × GoString) :
    Env (List (WakeCall (GoString × GoString))) (GoString × GoString) where
  urlParse := plainURL
  ResolveUDPAddr := literalResolve
  ParseMAC := ParseMAC
  SplitHostPort := SplitHostPort
  runIP := runIP
  Wake := recordingWake

/-! ## Requests for the examples -/

/-- A request for four targets through `eth0`, with a password. -/
def exampleRequest : Request :=
  ⟨str "/00:11:22:33:44:55,zz,00:11:22:33:44:55:66:77,0011.22AA.44ff?via=eth0:7&pass=0123456789aB"⟩

/-- The URL of `exampleRequest`. -/
def exampleURL : URL :=
  ⟨str "/00:11:22:33:44:55,zz,00:11:22:33:44:55:66:77,0011.22AA.44ff",
    queryValues (Split (str "via=eth0:7&pass=0123456789aB") (str "&"))⟩

/-- A request for one target, with a remote address and nothing else. -/
def remoteRequest : Request := ⟨str "/00:11:22:33:44:55?remote=10.0.0.255:7"⟩

/-- The URL of `remoteRequest`. -/
def remoteURL : URL :=
  ⟨str "/00:11:22:33:44:55", queryValues (Split (str "remote=10.0.0.255:7") (str "&"))⟩

/-- A request for one target whose password has the letter `g` in it. -/
def rejectedRequest : Request := ⟨str "/00:11:22:33:44:55?pass=0123456789ag"⟩

/-- The URL of `rejectedRequest`. -/
def rejectedURL : URL :=
  ⟨str "/00:11:22:33:44:55", queryValues (Split (str "pass=0123456789ag") (str "&"))⟩

/-- A request for one target with no parameters. -/
def plainRequest : Request := ⟨str "/00:11:22:33:44:55"⟩

/-- The URL of `plainRequest`. -/
def plainRequestURL : URL := ⟨str "/00:11:22:33:44:55", fun _ => []⟩

/-! ## The string functions meet their descriptions -/

theorem HasPrefix_iff (s p : GoString) : HasPrefix s p = true ↔ p <+: s := by
  induction p generalizing s with
  | nil => simp [HasPrefix]
  | cons d p ih =>
    cases s with
    | nil => simp [HasPrefix]
    | cons c s =>
      simp only [HasPrefix, Bool.and_eq_true, beq_iff_eq, ih, List.cons_prefix_cons]
      constructor
      · rintro ⟨h, h'⟩; exact ⟨h.symm, h'⟩
      · rintro ⟨h, h'⟩; exact ⟨h.symm, h'⟩

/-- `Index` is -1 when `substr` does not occur, and otherwise the length of the shortest
`pre` with `s = pre ++ substr ++ rest`. -/
theorem Index_spec (s substr : GoString) :
    (Index s substr = -1 ∧ ¬ substr <:+: s) ∨
    (∃ pre rest, s = pre ++ substr ++ rest ∧ Index s substr = (pre.length : Int) ∧
      ∀ pre' rest', s = pre' ++ substr ++ rest' → pre.length ≤ pre'.length) := by
  induction s with
  | nil =>
    by_cases h : substr = []
    · right
      refine ⟨[], [], by simp [h], by simp [Index, h], by simp⟩
    · left
      refine ⟨by simp [Index, h], ?_⟩
      simpa using h
  | cons c t ih =>
    by_cases hp : HasPrefix (c :: t) substr = true
    · right
      obtain ⟨rest, hrest⟩ := (HasPrefix_iff _ _).1 hp
      refine ⟨[], rest, by simp [hrest], by simp [Index, hp], by simp⟩
    · have hnp : ¬ substr <+: c :: t := fun h => hp ((HasPrefix_iff _ _).2 h)
      rcases ih with ⟨hi, hn⟩ | ⟨pre, rest, hs, hi, hmin⟩
      · left
        refine ⟨by simp [Index, hp, hi], ?_⟩
        rw [List.infix_cons_iff]
        exact fun h => h.elim hnp hn
      · right
        refine ⟨c :: pre, rest, by simp [hs], ?_, ?_⟩
        · have : ¬ ((pre.length : Int) < 0) := by omega
          simp [Index, hp, hi, this]
        · intro pre' rest' h'
          cases pre' with
          | nil => exact absurd ⟨rest', by simpa using h'.symm⟩ hnp
          | cons d q =>
            simp only [List.cons_append, List.cons.injEq] at h'
            have := hmin q rest' h'.2
            simp only [List.length_cons]
            omega

theorem Index_neg_iff (s substr : GoString) : Index s substr < 0 ↔ ¬ substr <:+: s := by
  rcases Index_spec s substr with ⟨hi, hn⟩ | ⟨pre, rest, hs, hi, _⟩
  · simp [hi, hn]
  · have : substr <:+: s := ⟨pre, rest, hs.symm⟩
    simp only [hi, this, not_true_eq_false, iff_false]
    omega

/-- At the first occurrence, `Index` is the length of what stands before it. -/
theorem Index_first (s substr pre rest : GoString) (hs : s = pre ++ substr ++ rest)
    (hmin : ∀ pre' rest', s = pre' ++ substr ++ rest' → pre.length ≤ pre'.length) :
    Index s substr = (pre.length : Int) := by
  rcases Index_spec s substr with ⟨_, hn⟩ | ⟨pre₀, rest₀, hs₀, hi, hmin₀⟩
  · exact absurd ⟨pre, rest, hs.symm⟩ hn
  · have h₁ := hmin pre₀ rest₀ hs₀
    have h₂ := hmin₀ pre rest hs
    rw [hi]
    congr 1
    omega

theorem Contains_iff (s substr : GoString) : Contains s substr = true ↔ substr <:+: s := by
  have := Index_neg_iff s substr
  simp only [Contains, ge_iff_le, decide_eq_true_eq]
  constructor
  · intro h
    by_contra hc
    have := this.2 hc
    omega
  · intro h
    by_contra hc
    exact (this.1 (by omega)) h

/-- Cutting at a single byte `c`: no `c`, or the text before the first `c` and the rest. -/
theorem Index_byte (s : GoString) (c : Nat) :
    (Index s [c] = -1 ∧ c ∉ s) ∨
    (∃ pre rest, s = pre ++ c :: rest ∧ c ∉ pre ∧ Index s [c] = (pre.length : Int)) := by
  rcases Index_spec s [c] with ⟨hi, hn⟩ | ⟨pre, rest, hs, hi, hmin⟩
  · left
    refine ⟨hi, fun hmem => hn ?_⟩
    obtain ⟨a, b, hab⟩ := List.append_of_mem hmem
    exact ⟨a, b, by simp [hab]⟩
  · right
    refine ⟨pre, rest, by simpa using hs, ?_, hi⟩
    intro hmem
    obtain ⟨a, b, hab⟩ := List.append_of_mem hmem
    have := hmin a (b ++ c :: rest) (by simp [hs, hab])
    have hl : pre.length = a.length + 1 + b.length := by simp [hab]; omega
    omega

/-- `strings.Split` at a single byte is the list cut at each occurrence of that byte. -/
theorem genSplit_byte (c : Nat) (k : Nat) (s : GoString) (hk : s.length ≤ k) :
    genSplit [c] k s = s.splitOn c := by
  induction k generalizing s with
  | zero =>
    have : s = [] := List.length_eq_zero.1 (by omega)
    subst this
    simp [genSplit, List.splitOn]
  | succ k ih =>
    rcases Index_byte s c with ⟨hi, hn⟩ | ⟨pre, rest, hs, hpre, hi⟩
    · have h1 : s.splitOn c = [s] := by
        unfold List.splitOn
        refine List.splitOnP_eq_single _ _ (fun x hx => ?_)
        have : x ≠ c := fun h => hn (h ▸ hx)
        simpa using this
      simp [genSplit, hi, h1]
    · have h1 : s.splitOn c = pre :: rest.splitOn c := by
        unfold List.splitOn
        rw [hs]
        refine List.splitOnP_first _ _ (fun x hx => ?_) c (by simp) rest
        have : x ≠ c := fun h => hpre (h ▸ hx)
        simpa using this
      have h2 : ¬ ((pre.length : Int) < 0) := by omega
      have h3 : rest.length ≤ k := by
        have : s.length = pre.length + (rest.length + 1) := by simp [hs]
        omega
      have h4 : List.take pre.length s = pre := by simp [hs]
      have h5 : List.drop (pre.length + 1) s = rest := by
        rw [hs, ← List.drop_drop]; simp
      simp [genSplit, hi, h2, h1, h4, h5, ih rest h3]

theorem Split_byte (s : GoString) (c : Nat) : Split s [c] = s.splitOn c :=
  genSplit_byte c s.length s (le_refl _)

/-- The first field of `SplitN(s, " ", 2)` is the text before the first space. -/
theorem SplitN_two_head (s : GoString) (c : Nat) :
    (SplitN s [c] 2).headD [] = s.takeWhile (· ≠ c) := by
  cases s with
  | nil => simp [SplitN, genSplit]
  | cons x t =>
    have hfuel : min 2 ((x :: t).length + 1) - 1 = 1 := by
      simp only [List.length_cons]; omega
    simp only [SplitN, hfuel]
    rcases Index_byte (x :: t) c with ⟨hi, hn⟩ | ⟨pre, rest, hs, hpre, hi⟩
    · have h6 : List.takeWhile (· ≠ c) (x :: t) = x :: t := by
        refine List.takeWhile_eq_self_iff.2 (fun y hy => ?_)
        have : y ≠ c := fun h => hn (h ▸ hy)
        simpa using this
      rw [h6]
      simp [genSplit, hi]
    · have h2 : ¬ ((pre.length : Int) < 0) := by omega
      have h4 : List.take pre.length (x :: t) = pre := by simp [hs]
      have h6 : List.takeWhile (· ≠ c) (x :: t) = pre := by
        have hp : ∀ y ∈ pre, (decide (y ≠ c)) = true := by
          intro y hy
          have : y ≠ c := fun h => hpre (h ▸ hy)
          simpa using this
        rw [hs, List.takeWhile_append_of_pos hp]
        simp
      rw [h6]
      simp [genSplit, hi, h2, h4]


/-! ## The literals of the source -/

theorem str_empty : str "" = [] := by decide
theorem str_colon : str ":" = [0x3a] := by decide
theorem str_space : str " " = [0x20] := by decide
theorem str_comma : str "," = [0x2c] := by decide
theorem str_slash : str "/" = [0x2f] := by decide
theorem str_zero : str "0" = [0x30] := by decide

/-! ## The request path -/

theorem TrimPrefix_slash (path : GoString) :
    TrimPrefix path (str "/") = withoutLeadingSlash path := by
  rw [str_slash]
  cases path with
  | nil => simp [TrimPrefix, HasPrefix, withoutLeadingSlash]
  | cons c p =>
    by_cases h : c = 0x2f
    · subst h; simp [TrimPrefix, HasPrefix, withoutLeadingSlash]
    · simp only [TrimPrefix, HasPrefix, Bool.and_true, beq_iff_eq, h, if_false]
      unfold withoutLeadingSlash
      split
      · rename_i heq; simp only [List.cons.injEq] at heq; exact absurd heq.1 h
      · rfl

theorem macs_eq_segments (path : GoString) :
    Split (TrimPrefix path (str "/")) (str ",") = segments path := by
  rw [TrimPrefix_slash, str_comma, Split_byte, segments]

theorem segments_length (path : GoString) : (segments path).length ≠ 0 := by
  intro h
  exact List.splitOnP_ne_nil _ _ (List.length_eq_zero.1 h)

theorem segments_ne_nil (path : GoString) : segments path ≠ [] :=
  List.splitOnP_ne_nil _ _

/-! ## The loop of `wakeHander` -/

theorem wakeEach_calls {σ Addr : Type} (env : Env σ Addr) (pw : List Nat)
    (laddr : Option Addr) (raddr : Addr) (macs : List GoString) (s : σ) :
    (wakeEach env pw laddr raddr macs s).log.map Prod.fst =
      (macs.filterMap (parsedMAC env)).map (fun mac => ⟨mac, pw, laddr, raddr⟩) := by
  induction macs generalizing s with
  | nil => simp [wakeEach]
  | cons m macs ih =>
    simp only [wakeEach, parsedMAC]
    cases hp : (env.ParseMAC m).2 with
    | some err => simpa [hp, parsedMAC] using ih s
    | none =>
      cases hw : (env.Wake s (env.ParseMAC m).1 pw laddr raddr).1 with
      | some err => simpa [hp, parsedMAC] using ih _
      | none => simpa [hp, parsedMAC] using ih _

theorem wakeEach_body {σ Addr : Type} (env : Env σ Addr) (pw : List Nat)
    (laddr : Option Addr) (raddr : Addr) (macs : List GoString) (s : σ) :
    (wakeEach env pw laddr raddr macs s).body =
      ((wakeEach env pw laddr raddr macs s).log.filter (fun c => c.2.isNone)).flatMap
        (fun c => waveLine c.1.mac) := by
  induction macs generalizing s with
  | nil => simp [wakeEach]
  | cons m macs ih =>
    simp only [wakeEach]
    cases hp : (env.ParseMAC m).2 with
    | some err => simpa using ih s
    | none =>
      cases hw : (env.Wake s (env.ParseMAC m).1 pw laddr raddr).1 with
      | some err => simpa using ih _
      | none => simpa using ih _

/-- A request whose parameters validate runs the loop over the segments of its path. -/
theorem wakeHander_valid {σ Addr : Type} (env : Env σ Addr) (req : Request) (s : σ)
    (u : URL) (via remote pass : GoString) (raddr : Addr) (laddr : Option Addr)
    (pw : List Nat)
    (hu : env.urlParse req.RequestURI = some u)
    (hvia : parameter (u.Query (str "via")) = .ok via)
    (hroute : (route env via).err = none)
    (hremote : parameter (u.Query (str "remote")) = .ok remote)
    (hpass : parameter (u.Query (str "pass")) = .ok pass)
    (hraddr : env.ResolveUDPAddr (remoteOrDefault remote) = .ok raddr)
    (hladdr : resolveLocal env (route env via).addr = .ok laddr)
    (hpw : password pass = .ok pw) :
    wakeHander env req s =
      { wakeEach env pw laddr raddr (segments u.Path) s with ran := (route env via).ran } := by
  unfold resolveLocal at hladdr
  unfold remoteOrDefault at hraddr
  simp only [wakeHander, hu, macs_eq_segments, segments_length, if_false, hvia, hroute,
    hremote, hpass, hraddr, hladdr, hpw]

/-- Every run of `wakeHander` either stops before the loop, having called and written
nothing and left the world as it was, or is the run of a request whose parameters
validate. -/
theorem wakeHander_rejected_or_valid {σ Addr : Type} (env : Env σ Addr) (req : Request)
    (s : σ) :
    ((wakeHander env req s).log = [] ∧ (wakeHander env req s).body = [] ∧
      (wakeHander env req s).state = s) ∨
    ∃ u via remote pass raddr laddr pw,
      env.urlParse req.RequestURI = some u ∧
      parameter (u.Query (str "via")) = .ok via ∧
      (route env via).err = none ∧
      parameter (u.Query (str "remote")) = .ok remote ∧
      parameter (u.Query (str "pass")) = .ok pass ∧
      env.ResolveUDPAddr (remoteOrDefault remote) = .ok raddr ∧
      resolveLocal env (route env via).addr = .ok laddr ∧
      password pass = .ok pw ∧
      wakeHander env req s =
        { wakeEach env pw laddr raddr (segments u.Path) s with ran := (route env via).ran } := by
  cases hu : env.urlParse req.RequestURI with
  | none => left; simp [wakeHander, hu]
  | some u =>
  cases hvia : parameter (u.Query (str "via")) with
  | error e => left; simp [wakeHander, hu, hvia, macs_eq_segments, segments_length, segments_ne_nil]
  | ok via =>
  cases hroute : (route env via).err with
  | some e => left; simp [wakeHander, hu, hvia, hroute, macs_eq_segments, segments_length, segments_ne_nil]
  | none =>
  cases hremote : parameter (u.Query (str "remote")) with
  | error e =>
    left; simp [wakeHander, hu, hvia, hroute, hremote, macs_eq_segments, segments_length, segments_ne_nil]
  | ok remote =>
  cases hpass : parameter (u.Query (str "pass")) with
  | error e =>
    left; simp [wakeHander, hu, hvia, hroute, hremote, hpass, macs_eq_segments, segments_length, segments_ne_nil]
  | ok pass =>
  cases hraddr : env.ResolveUDPAddr (remoteOrDefault remote) with
  | error e =>
    left
    unfold remoteOrDefault at hraddr
    simp [wakeHander, hu, hvia, hroute, hremote, hpass, hraddr, macs_eq_segments,
      segments_length, segments_ne_nil]
  | ok raddr =>
  cases hladdr : resolveLocal env (route env via).addr with
  | error e =>
    left
    unfold remoteOrDefault at hraddr
    unfold resolveLocal at hladdr
    simp [wakeHander, hu, hvia, hroute, hremote, hpass, hraddr, hladdr, macs_eq_segments,
      segments_length, segments_ne_nil]
  | ok laddr =>
  cases hpw : password pass with
  | error e =>
    left
    unfold remoteOrDefault at hraddr
    unfold resolveLocal at hladdr
    simp [wakeHander, hu, hvia, hroute, hremote, hpass, hraddr, hladdr, hpw,
      macs_eq_segments, segments_length, segments_ne_nil]
  | ok pw =>
    right
    exact ⟨u, via, remote, pass, raddr, laddr, pw, rfl, hvia, hroute, hremote, hpass, hraddr,
      hladdr, hpw,
      wakeHander_valid env req s u via remote pass raddr laddr pw hu hvia hroute hremote
        hpass hraddr hladdr hpw⟩


/-- Every run of `wakeHander` either stops before the loop, having called and written
nothing, or is the run of a request whose parameters validate. -/
theorem wakeHander_cases {σ Addr : Type} (env : Env σ Addr) (req : Request) (s : σ) :
    ((wakeHander env req s).log = [] ∧ (wakeHander env req s).body = []) ∨
    ∃ u via remote pass raddr laddr pw,
      env.urlParse req.RequestURI = some u ∧
      parameter (u.Query (str "via")) = .ok via ∧
      (route env via).err = none ∧
      parameter (u.Query (str "remote")) = .ok remote ∧
      parameter (u.Query (str "pass")) = .ok pass ∧
      env.ResolveUDPAddr (remoteOrDefault remote) = .ok raddr ∧
      resolveLocal env (route env via).addr = .ok laddr ∧
      password pass = .ok pw ∧
      wakeHander env req s =
        { wakeEach env pw laddr raddr (segments u.Path) s with ran := (route env via).ran } := by
  rcases wakeHander_rejected_or_valid env req s with ⟨hlog, hbody, _⟩ | h
  · exact Or.inl ⟨hlog, hbody⟩
  · exact Or.inr h

/-- The loop of `wakeHander` is the series of wake calls for the segments that parse:
what the calls returned, the state they leave, and a line written for each call that
returned no error. -/
theorem wakeEach_series {σ Addr : Type} (env : Env σ Addr) (pw : List Nat)
    (laddr : Option Addr) (raddr : Addr) (macs : List GoString) (s : σ) :
    (wakeEach env pw laddr raddr macs s).log.map Prod.snd =
        (wakeSeries env pw laddr raddr (macs.filterMap (parsedMAC env)) s).1 ∧
      (wakeEach env pw laddr raddr macs s).state =
        (wakeSeries env pw laddr raddr (macs.filterMap (parsedMAC env)) s).2 ∧
      (wakeEach env pw laddr raddr macs s).body =
        (((macs.filterMap (parsedMAC env)).zip
          (wakeSeries env pw laddr raddr (macs.filterMap (parsedMAC env)) s).1).filter
            (fun p => p.2.isNone)).flatMap (fun p => str "👋 " ++ p.1.String ++ str "\n") := by
  induction macs generalizing s with
  | nil => simp [wakeEach, wakeSeries]
  | cons m macs ih =>
    cases hp : (env.ParseMAC m).2 with
    | some err =>
      have hf : parsedMAC env m = none := by simp [parsedMAC, hp]
      simpa [wakeEach, hp, hf] using ih s
    | none =>
      have hf : parsedMAC env m = some (env.ParseMAC m).1 := by simp [parsedMAC, hp]
      have h := ih (env.Wake s (env.ParseMAC m).1 pw laddr raddr).2
      cases hw : (env.Wake s (env.ParseMAC m).1 pw laddr raddr).1 with
      | some err =>
        simp only [wakeEach, hp, hw, List.filterMap_cons, hf, wakeSeries, List.map_cons,
          List.zip_cons_cons, List.filter_cons, Option.isNone_some, h.1, h.2.1, h.2.2]
        simp
      | none =>
        simp only [wakeEach, hp, hw, List.filterMap_cons, hf, wakeSeries, List.map_cons,
          List.zip_cons_cons, List.filter_cons, Option.isNone_none, h.1, h.2.1, h.2.2]
        simp [waveLine]

theorem wakeEach_call_args {σ Addr : Type} (env : Env σ Addr) (pw : List Nat)
    (laddr : Option Addr) (raddr : Addr) (macs : List GoString) (s : σ)
    (c : WakeCall Addr) (hc : c ∈ (wakeEach env pw laddr raddr macs s).log.map Prod.fst) :
    c.pw = pw ∧ c.laddr = laddr ∧ c.raddr = raddr := by
  rw [wakeEach_calls, List.mem_map] at hc
  obtain ⟨mac, _, rfl⟩ := hc
  exact ⟨rfl, rfl, rfl⟩

/-! ## `route` -/

/-- The host and port `route` works with: `via` itself and no port when `via` has no
colon, and otherwise what `net.SplitHostPort` makes of it. -/
theorem route_split {σ Addr : Type} (env : Env σ Addr) (via host port : GoString)
    (hvia : (¬ str ":" <:+: via ∧ host = via ∧ port = []) ∨
      (str ":" <:+: via ∧ env.SplitHostPort via = .ok (host, port))) :
    (if Contains via (str ":") then env.SplitHostPort via
      else (.ok (via, []) : Except Error (GoString × GoString))) = .ok (host, port) := by
  rcases hvia with ⟨hn, rfl, rfl⟩ | ⟨hc, hs⟩
  · have : ¬ Contains host (str ":") = true := fun h => hn ((Contains_iff _ _).1 h)
    simp [this]
  · have : Contains via (str ":") = true := (Contains_iff _ _).2 hc
    simp [this, hs]

theorem route_failed {σ Addr : Type} (env : Env σ Addr) (via host port : GoString)
    (hvia : (¬ str ":" <:+: via ∧ host = via ∧ port = []) ∨
      (str ":" <:+: via ∧ env.SplitHostPort via = .ok (host, port)))
    (err : Error) (out : GoString) (hrun : env.runIP host = (some err, out)) :
    route env via =
      if HasPrefix out (str "Cannot find device") then ⟨via, none, [ipCommand host]⟩
      else ⟨[], some (.ip err), [ipCommand host]⟩ := by
  unfold route
  simp only [route_split env via host port hvia, hrun]

theorem route_succeeded {σ Addr : Type} (env : Env σ Addr) (via host port : GoString)
    (hvia : (¬ str ":" <:+: via ∧ host = via ∧ port = []) ∨
      (str ":" <:+: via ∧ env.SplitHostPort via = .ok (host, port)))
    (out : GoString) (hrun : env.runIP host = (none, out)) :
    route env via =
      if Index out srcSel < 0 then ⟨[], some (.noSrcSelector out), [ipCommand host]⟩
      else
        ⟨(SplitN (out.drop ((Index out srcSel).toNat + srcSel.length)) (str " ") 2).headD []
          ++ str ":" ++ (if port = [] then str "0" else port), none, [ipCommand host]⟩ := by
  unfold route
  simp only [route_split env via host port hvia, hrun]


/-! ## The claims about `route` -/

/-- C7: when `via` names a device (host `host`, port `port`) and the routing command
succeeds with output `out`: if `out = pre ++ " src " ++ rest` at the first occurrence of
`" src "`, `route` returns `A ++ ":" ++ P` with no error, `A` being `rest` up to but not
including its first space (or all of `rest`), `P` the port of `via` or `"0"` when it has
none; if `out` does not contain `" src "`, `route` returns a `no src selector` error. -/
theorem route_source_address {σ Addr : Type} (env : Env σ Addr) (via host port : GoString)
    (hvia : (¬ str ":" <:+: via ∧ host = via ∧ port = []) ∨
      (str ":" <:+: via ∧ env.SplitHostPort via = .ok (host, port)))
    (out : GoString) (hrun : env.runIP host = (none, out)) :
    (∀ pre rest, out = pre ++ str " src " ++ rest →
      (∀ pre' rest', out = pre' ++ str " src " ++ rest' → pre.length ≤ pre'.length) →
      route env via =
        ⟨rest.takeWhile (· ≠ 0x20) ++ str ":" ++ (if port = [] then str "0" else port),
          none, [ipCommand host]⟩) ∧
    (¬ str " src " <:+: out →
      route env via = ⟨[], some (.noSrcSelector out), [ipCommand host]⟩) := by
  rw [route_succeeded env via host port hvia out hrun]
  constructor
  · intro pre rest hout hmin
    have hi : Index out srcSel = (pre.length : Int) := Index_first out srcSel pre rest hout hmin
    have hneg : ¬ ((pre.length : Int) < 0) := by omega
    have hdrop : out.drop (pre.length + srcSel.length) = rest := by
      rw [hout, List.append_assoc, ← List.drop_drop]
      simp [srcSel]
    rw [hi, if_neg hneg, Int.toNat_ofNat, hdrop, str_space, SplitN_two_head]
  · intro hn
    have : Index out srcSel < 0 := (Index_neg_iff out srcSel).2 hn
    rw [if_pos this]

/-- C6: when the routing command for the host of `via` fails and its captured output
begins with `Cannot find device`, `route` returns `via` unchanged with no error; when it
fails with any other output, `route` returns an error; when `via` contains `:` and
`net.SplitHostPort` rejects it, `route` returns an error without running the command. -/
theorem route_unknown_device {σ Addr : Type} (env : Env σ Addr) (via : GoString) :
    (∀ host port err out,
      ((¬ str ":" <:+: via ∧ host = via ∧ port = []) ∨
        (str ":" <:+: via ∧ env.SplitHostPort via = .ok (host, port))) →
      env.runIP host = (some err, out) →
      (str "Cannot find device" <+: out →
        route env via = ⟨via, none, [ipCommand host]⟩) ∧
      (¬ str "Cannot find device" <+: out →
        route env via = ⟨[], some (.ip err), [ipCommand host]⟩)) ∧
    (∀ err, str ":" <:+: via → env.SplitHostPort via = .error err →
      route env via = ⟨via, some (.splitHostPort err), []⟩) := by
  constructor
  · intro host port err out hvia hrun
    rw [route_failed env via host port hvia err out hrun]
    constructor
    · intro h
      rw [if_pos ((HasPrefix_iff _ _).2 h)]
    · intro h
      rw [if_neg (fun hp => h ((HasPrefix_iff _ _).1 hp))]
  · intro err hc hs
    have : Contains via (str ":") = true := (Contains_iff _ _).2 hc
    unfold route
    simp only [this, if_true, hs]

/-- C5, as amended: for a request with no `via`, `route` runs the routing command once,
for the empty device name; when that command fails and its captured output begins with
`Cannot find device`, `route` returns an empty local address with no error and every
wake call is made with a nil local address. -/
theorem route_without_via {σ Addr : Type} (env : Env σ Addr) :
    (route env []).ran = [ipCommand []] ∧
    (∀ err out, env.runIP [] = (some err, out) → str "Cannot find device" <+: out →
      route env [] = ⟨[], none, [ipCommand []]⟩ ∧
      ∀ req s u, env.urlParse req.RequestURI = some u →
        parameter (u.Query (str "via")) = .ok [] →
        ∀ c ∈ (wakeHander env req s).calls, c.laddr = none) := by
  have hvia : (¬ str ":" <:+: ([] : GoString) ∧ ([] : GoString) = [] ∧ ([] : GoString) = []) ∨
      (str ":" <:+: ([] : GoString) ∧ env.SplitHostPort [] = .ok ([], [])) := by
    left
    refine ⟨?_, rfl, rfl⟩
    rw [str_colon]
    simp
  constructor
  · cases hrun : env.runIP [] with
    | mk e out =>
      cases e with
      | some err =>
        rw [route_failed env [] [] [] hvia err out hrun]
        split <;> rfl
      | none =>
        rw [route_succeeded env [] [] [] hvia out hrun]
        split <;> rfl
  · intro err out hrun hpre
    have hr : route env [] = ⟨[], none, [ipCommand []]⟩ := by
      rw [route_failed env [] [] [] hvia err out hrun, if_pos ((HasPrefix_iff _ _).2 hpre)]
    refine ⟨hr, ?_⟩
    intro req s u hu hq c hc
    rcases wakeHander_cases env req s with ⟨hlog, _⟩ | ⟨u', via, remote, pass, raddr, laddr, pw,
      hu', hvia', _, _, _, _, hladdr, _, hrun'⟩
    · simp [Response.calls, hlog] at hc
    · rw [hu] at hu'
      cases hu'
      rw [hq] at hvia'
      cases hvia'
      rw [hr] at hladdr
      simp only [resolveLocal, ne_eq, not_true_eq_false, if_false, Except.ok.injEq] at hladdr
      rw [hrun'] at hc
      have := wakeEach_call_args env pw laddr raddr (segments u.Path) s c hc
      rw [this.2.1, ← hladdr]


/-! ## The claims about `wakeHander` -/

/-- C1: for a request whose parameters validate (`via`, `remote` and `pass` accepted, `route`
without error, both addresses resolved, the password decoded), `wakeHander` calls
`wol.Wake` exactly once for each comma-separated segment of the path (less its leading
`/`) that `net.ParseMAC` accepts, in the order of the segments, each with that segment's
address and the same password, local and remote address: the recorded calls are these,
what they returned is what `env.Wake` returns along that series, a failed call being
followed by the calls for the later segments, and the world is left in the state that
series leaves it in. -/
theorem wakeHander_wakes_each_parsed_segment {σ Addr : Type} (env : Env σ Addr)
    (req : Request) (s : σ) (u : URL) (via remote pass : GoString) (raddr : Addr)
    (laddr : Option Addr) (pw : List Nat)
    (hu : env.urlParse req.RequestURI = some u)
    (hvia : parameter (u.Query (str "via")) = .ok via)
    (hroute : (route env via).err = none)
    (hremote : parameter (u.Query (str "remote")) = .ok remote)
    (hpass : parameter (u.Query (str "pass")) = .ok pass)
    (hraddr : env.ResolveUDPAddr (remoteOrDefault remote) = .ok raddr)
    (hladdr : resolveLocal env (route env via).addr = .ok laddr)
    (hpw : password pass = .ok pw) :
    (wakeHander env req s).calls =
        ((segments u.Path).filterMap (parsedMAC env)).map
          (fun mac => ⟨mac, pw, laddr, raddr⟩) ∧
      (wakeHander env req s).log.map Prod.snd =
        (wakeSeries env pw laddr raddr ((segments u.Path).filterMap (parsedMAC env)) s).1 ∧
      (wakeHander env req s).state =
        (wakeSeries env pw laddr raddr ((segments u.Path).filterMap (parsedMAC env)) s).2 := by
  rw [wakeHander_valid env req s u via remote pass raddr laddr pw hu hvia hroute hremote
    hpass hraddr hladdr hpw]
  have h := wakeEach_series env pw laddr raddr (segments u.Path) s
  exact ⟨wakeEach_calls env pw laddr raddr (segments u.Path) s, h.1, h.2.1⟩

/-- C4: in every run of `wakeHander`, when the `remote` parameter is absent or given once
and empty, the remote address of every wake call is the one resolved from
`255.255.255.255:9`; when it is given once and not empty, it is the one resolved from
the value given. -/
theorem wakeHander_remote_default {σ Addr : Type} (env : Env σ Addr) (req : Request)
    (s : σ) (u : URL) (hu : env.urlParse req.RequestURI = some u)
    (c : WakeCall Addr) (hc : c ∈ (wakeHander env req s).calls) :
    ((u.Query (str "remote") = [] ∨ u.Query (str "remote") = [[]]) →
      env.ResolveUDPAddr (str "255.255.255.255:9") = .ok c.raddr) ∧
    (∀ r, r ≠ [] → u.Query (str "remote") = [r] → env.ResolveUDPAddr r = .ok c.raddr) := by
  rcases wakeHander_cases env req s with ⟨hlog, _⟩ | ⟨u', via, remote, pass, raddr, laddr, pw,
    hu', _, _, hremote, _, hraddr, _, _, hrun⟩
  · simp [Response.calls, hlog] at hc
  · rw [hu] at hu'
    cases hu'
    rw [hrun] at hc
    have hargs := wakeEach_call_args env pw laddr raddr (segments u.Path) s c hc
    rw [hargs.2.2]
    constructor
    · intro hq
      have : remote = [] := by
        rcases hq with hq | hq <;> rw [hq] at hremote <;>
          simp [parameter] at hremote <;> exact hremote
      rw [this] at hraddr
      simpa [remoteOrDefault] using hraddr
    · intro r hr hq
      rw [hq] at hremote
      have : remote = r := by
        simp [parameter] at hremote
        first | exact hremote | exact hremote.symm
      rw [this] at hraddr
      simpa [remoteOrDefault, hr] using hraddr

/-- C8: the body written by `wakeHander` reports exactly the successful wakes. For a
request whose parameters validate, it is the concatenation, in path order, of one line
`👋 <mac>\n` for each segment that `net.ParseMAC` accepts and for which the call of
`env.Wake`, made in its turn in the series of calls, returned no error; a segment that
failed to parse or to wake adds nothing. For every other request the body is empty and
the world is left as it was. -/
theorem wakeHander_body_reports_successes {σ Addr : Type} (env : Env σ Addr)
    (req : Request) (s : σ) :
    (∀ u via remote pass raddr laddr pw,
      env.urlParse req.RequestURI = some u →
      parameter (u.Query (str "via")) = .ok via →
      (route env via).err = none →
      parameter (u.Query (str "remote")) = .ok remote →
      parameter (u.Query (str "pass")) = .ok pass →
      env.ResolveUDPAddr (remoteOrDefault remote) = .ok raddr →
      resolveLocal env (route env via).addr = .ok laddr →
      password pass = .ok pw →
      (wakeHander env req s).body =
        ((((segments u.Path).filterMap (parsedMAC env)).zip
          (wakeSeries env pw laddr raddr
            ((segments u.Path).filterMap (parsedMAC env)) s).1).filter
              (fun p => p.2.isNone)).flatMap
                (fun p => str "👋 " ++ p.1.String ++ str "\n")) ∧
    ((¬ ∃ u via remote pass raddr laddr pw,
        env.urlParse req.RequestURI = some u ∧
        parameter (u.Query (str "via")) = .ok via ∧
        (route env via).err = none ∧
        parameter (u.Query (str "remote")) = .ok remote ∧
        parameter (u.Query (str "pass")) = .ok pass ∧
        env.ResolveUDPAddr (remoteOrDefault remote) = .ok raddr ∧
        resolveLocal env (route env via).addr = .ok laddr ∧
        password pass = .ok pw) →
      (wakeHander env req s).body = [] ∧ (wakeHander env req s).state = s) := by
  constructor
  · intro u via remote pass raddr laddr pw hu hvia hroute hremote hpass hraddr hladdr hpw
    rw [wakeHander_valid env req s u via remote pass raddr laddr pw hu hvia hroute hremote
      hpass hraddr hladdr hpw]
    exact (wakeEach_series env pw laddr raddr (segments u.Path) s).2.2
  · intro hno
    rcases wakeHander_rejected_or_valid env req s with ⟨_, hbody, hstate⟩ |
      ⟨u, via, remote, pass, raddr, laddr, pw, hu, hvia, hroute, hremote, hpass, hraddr,
        hladdr, hpw, _⟩
    · exact ⟨hbody, hstate⟩
    · exact absurd ⟨u, via, remote, pass, raddr, laddr, pw, hu, hvia, hroute, hremote,
        hpass, hraddr, hladdr, hpw⟩ hno

/-! ## `hex.DecodeString` and the password block -/

theorem IsHexDigit_lt (b : Nat) (h : IsHexDigit b) : b < 103 := by
  have h₁ : str "0123456789abcdef" =
      [48, 49, 50, 51, 52, 53, 54, 55, 56, 57, 97, 98, 99, 100, 101, 102] := by decide
  have h₂ : str "ABCDEF" = [65, 66, 67, 68, 69, 70] := by decide
  unfold IsHexDigit at h
  rw [h₁, h₂] at h
  simp only [List.mem_cons, List.mem_singleton, List.not_mem_nil, or_false] at h
  omega

theorem reverseHexTable_digit (b : Nat) (h : IsHexDigit b) :
    reverseHexTable b = digitValue b ∧ digitValue b < 16 := by
  have key : ∀ b < 103, IsHexDigit b → reverseHexTable b = digitValue b ∧ digitValue b < 16 := by
    decide
  exact key b (IsHexDigit_lt b h) h

theorem reverseHexTable_other (b : Nat) (h : ¬ IsHexDigit b) : reverseHexTable b > 0x0f := by
  have key : ∀ b < 103, ¬ IsHexDigit b → reverseHexTable b > 0x0f := by decide
  by_cases hb : b < 103
  · exact key b hb h
  · unfold reverseHexTable
    split_ifs <;> omega

theorem shift_or (a b : Nat) (ha : a < 16) (hb : b < 16) :
    ((a <<< 4) % 256) ||| b = 16 * a + b := by
  have key : ∀ a < 16, ∀ b < 16, ((a <<< 4) % 256) ||| b = 16 * a + b := by decide
  exact key a ha b hb

theorem DecodeString_digits (n : Nat) (s : GoString) (hlen : s.length = 2 * n)
    (hs : ∀ b ∈ s, IsHexDigit b) :
    DecodeString s = (bytesOfDigits s, none) ∧ (bytesOfDigits s).length = n := by
  induction n generalizing s with
  | zero =>
    have : s = [] := List.length_eq_zero.1 (by omega)
    subst this
    simp [DecodeString, bytesOfDigits]
  | succ n ih =>
    match s, hlen, hs with
    | p :: q :: rest, hlen, hs =>
      have hp := reverseHexTable_digit p (hs p (by simp))
      have hq := reverseHexTable_digit q (hs q (by simp))
      have hrest := ih rest (by simp at hlen; omega) (fun b hb => hs b (by simp [hb]))
      have h₁ : ¬ digitValue p > 0x0f := by omega
      have h₂ : ¬ digitValue q > 0x0f := by omega
      have h₃ := shift_or (digitValue p) (digitValue q) hp.2 hq.2
      simp only [DecodeString, hp.1, hq.1, h₁, h₂, if_false, hrest.1, h₃, bytesOfDigits,
        List.length_cons, hrest.2, and_self]
    | [_], hlen, _ => simp at hlen; omega
    | [], hlen, _ => simp at hlen

theorem DecodeString_other (n : Nat) (s : GoString) (hlen : s.length ≤ n)
    (hs : ∃ b ∈ s, ¬ IsHexDigit b) : (DecodeString s).2 ≠ none := by
  induction n generalizing s with
  | zero =>
    have : s = [] := List.length_eq_zero.1 (by omega)
    subst this
    simp at hs
  | succ n ih =>
    match s, hlen, hs with
    | p :: q :: rest, hlen, hs =>
      by_cases hp : IsHexDigit p
      · by_cases hq : IsHexDigit q
        · have h₁ : ¬ reverseHexTable p > 0x0f := by
            have := reverseHexTable_digit p hp; omega
          have h₂ : ¬ reverseHexTable q > 0x0f := by
            have := reverseHexTable_digit q hq; omega
          have hrest : ∃ b ∈ rest, ¬ IsHexDigit b := by
            obtain ⟨b, hb, hnb⟩ := hs
            simp only [List.mem_cons] at hb
            rcases hb with rfl | rfl | hb
            · exact absurd hp hnb
            · exact absurd hq hnb
            · exact ⟨b, hb, hnb⟩
          have := ih rest (by simp at hlen; omega) hrest
          simpa [DecodeString, h₁, h₂] using this
        · have h₁ : ¬ reverseHexTable p > 0x0f := by
            have := reverseHexTable_digit p hp; omega
          have h₂ := reverseHexTable_other q hq
          simp [DecodeString, h₁, h₂]
      · have h₁ := reverseHexTable_other p hp
        simp [DecodeString, h₁]
    | [p], _, _ =>
      simp only [DecodeString]
      split <;> simp
    | [], _, hs => simp at hs

theorem password_cases (pass : GoString) :
    (pass = [] → password pass = .ok []) ∧
    (pass.length = 12 → (∀ b ∈ pass, IsHexDigit b) →
      password pass = .ok (bytesOfDigits pass) ∧ (bytesOfDigits pass).length = 6) ∧
    (pass ≠ [] → ¬ (pass.length = 12 ∧ ∀ b ∈ pass, IsHexDigit b) →
      ∃ msg, password pass = .error msg) := by
  refine ⟨?_, ?_, ?_⟩
  · rintro rfl
    simp [password]
  · intro hlen hs
    have := DecodeString_digits 6 pass (by omega) hs
    have h0 : ¬ pass.length = 0 := by omega
    simp [password, hlen, this.1, this.2]
  · intro hne hnot
    have h0 : ¬ pass.length = 0 := fun h => hne (List.length_eq_zero.1 h)
    by_cases hlen : pass.length = 12
    · have hs : ∃ b ∈ pass, ¬ IsHexDigit b := by
        by_contra hc
        push_neg at hc
        exact hnot ⟨hlen, hc⟩
      have := DecodeString_other 12 pass (by omega) hs
      cases hd : (DecodeString pass).2 with
      | none => exact absurd hd this
      | some err =>
        refine ⟨.failedToParsePassword err, ?_⟩
        simp [password, hlen, hd]
    · exact ⟨.invalidPassword pass, by simp only [password, h0, hlen, if_false]⟩


/-! ## The loop of `main` -/

/-- The loop of `main` calls `wol.Wake` for every argument, with whatever address
`net.ParseMAC` returned for it. -/
theorem mainEach_calls {σ Addr : Type} (env : Env σ Addr) (pw : List Nat)
    (laddr : Option Addr) (raddr : Addr) (args : List GoString) (s : σ) :
    (mainEach env pw laddr raddr args s).log.map Prod.fst =
      args.map (fun m => ⟨(env.ParseMAC m).1, pw, laddr, raddr⟩) := by
  induction args generalizing s with
  | nil => simp [mainEach]
  | cons m args ih => simp [mainEach, ih]

/-- Every run of `main` either exits with status 1 before the loop, having called
nothing, or is the loop run with a decoded password. -/
theorem main_cases {σ Addr : Type} (env : Env σ Addr) (flags : Flags) (s : σ) :
    ((main env flags s).exit = 1 ∧ (main env flags s).log = []) ∨
    ∃ raddr laddr pw, password (flags.pass.getD []) = .ok pw ∧
      main env flags s = mainEach env pw laddr raddr flags.args s := by
  unfold main
  rw [str_empty]
  by_cases hargs : flags.args.length = 0
  · left; simp [hargs]
  · simp only [hargs, if_false]
    cases env.ResolveUDPAddr (flags.remote.getD (str "255.255.255.255:9")) with
    | error e => left; simp
    | ok raddr =>
      cases (if flags.via.getD [] ≠ [] then (env.ResolveUDPAddr (flags.via.getD [])).map some
             else (.ok none : Except Error (Option Addr))) with
      | error e => left; simp
      | ok laddr =>
        cases hpw : password (flags.pass.getD []) with
        | error e => left; simp
        | ok pw => right; exact ⟨raddr, laddr, pw, rfl, rfl⟩

/-! ## The claim about the password -/

/-- C3: the wake password is a 12 digit hex number. For every `pass`: the password block
gives no password when `pass` is empty, gives exactly the 6 bytes its digits denote when
`pass` is 12 hexadecimal digits, and fails for every other string; when it fails,
`wakeHander` returns having called and written nothing and `main` exits with status 1
having called nothing; when it succeeds, every wake call carries its result. -/
theorem password_twelve_hex_digits (pass : GoString) :
    (pass = [] → password pass = .ok []) ∧
    (pass.length = 12 → (∀ b ∈ pass, IsHexDigit b) →
      password pass = .ok (bytesOfDigits pass) ∧ (bytesOfDigits pass).length = 6) ∧
    (pass ≠ [] → ¬ (pass.length = 12 ∧ ∀ b ∈ pass, IsHexDigit b) →
      ∃ msg, password pass = .error msg) ∧
    (∀ (σ Addr : Type) (env : Env σ Addr) (req : Request) (s : σ) (u : URL),
      env.urlParse req.RequestURI = some u →
      parameter (u.Query (str "pass")) = .ok pass →
      (∀ msg, password pass = .error msg →
        (wakeHander env req s).calls = [] ∧ (wakeHander env req s).body = []) ∧
      (∀ pw, password pass = .ok pw → ∀ c ∈ (wakeHander env req s).calls, c.pw = pw)) ∧
    (∀ (σ Addr : Type) (env : Env σ Addr) (flags : Flags) (s : σ),
      flags.pass.getD [] = pass →
      (∀ msg, password pass = .error msg →
        (main env flags s).exit = 1 ∧ (main env flags s).calls = []) ∧
      (∀ pw, password pass = .ok pw → ∀ c ∈ (main env flags s).calls, c.pw = pw)) := by
  refine ⟨(password_cases pass).1, (password_cases pass).2.1, (password_cases pass).2.2, ?_, ?_⟩
  · intro σ Addr env req s u hu hpass
    rcases wakeHander_cases env req s with ⟨hlog, hbody⟩ | ⟨u', via, remote, pass', raddr,
      laddr, pw', hu', _, _, _, hpass', _, _, hpw', hrun⟩
    · exact ⟨fun _ _ => ⟨by simp [Response.calls, hlog], hbody⟩,
        fun _ _ c hc => by simp [Response.calls, hlog] at hc⟩
    · rw [hu] at hu'
      cases hu'
      rw [hpass] at hpass'
      cases hpass'
      constructor
      · intro msg hmsg
        rw [hmsg] at hpw'
        cases hpw'
      · intro pw hpw c hc
        have hEq : pw = pw' := by
          rw [hpw] at hpw'
          exact Except.ok.inj hpw'
        rw [hrun] at hc
        rw [hEq]
        exact (wakeEach_call_args env pw' laddr raddr (segments u.Path) s c hc).1
  · intro σ Addr env flags s hflag
    rcases main_cases env flags s with ⟨hexit, hlog⟩ | ⟨raddr, laddr, pw', hpw', hrun⟩
    · exact ⟨fun _ _ => ⟨hexit, by simp [Process.calls, hlog]⟩,
        fun _ _ c hc => by simp [Process.calls, hlog] at hc⟩
    · rw [hflag] at hpw'
      constructor
      · intro msg hmsg
        rw [hmsg] at hpw'
        cases hpw'
      · intro pw hpw c hc
        have hEq : pw = pw' := by
          rw [hpw] at hpw'
          exact Except.ok.inj hpw'
        rw [hrun, Process.calls, mainEach_calls, List.mem_map] at hc
        obtain ⟨m, _, rfl⟩ := hc
        exact hEq.symm


/-! ## The claims at concrete requests -/

/-- What stands before the index `Index` returns is the shortest such text. -/
theorem first_of_Index (s substr pre : GoString) (hi : Index s substr = (pre.length : Int)) :
    ∀ pre' rest', s = pre' ++ substr ++ rest' → pre.length ≤ pre'.length := by
  intro pre' rest' h
  rcases Index_spec s substr with ⟨hneg, _⟩ | ⟨pre₀, rest₀, _, hi₀, hmin₀⟩
  · rw [hi] at hneg; omega
  · have := hmin₀ pre' rest' h
    rw [hi] at hi₀
    omega

/-- C1 at `exampleRequest`, in a world that keeps the packets sent: `zz` causes no call,
the call for the eight-byte address is refused, and the call for the last segment is
made all the same; two packets are sent, with the arguments of the request. -/
theorem wakeHander_wakes_each_parsed_segment_witness :
    (wakeHander (recordingEnv oneInterface) exampleRequest []).calls =
        [⟨[0x00, 0x11, 0x22, 0x33, 0x44, 0x55], [0x01, 0x23, 0x45, 0x67, 0x89, 0xab],
            some (str "10.0.0.7", str "7"), (str "255.255.255.255", str "9")⟩,
         ⟨[0x00, 0x11, 0x22, 0x33, 0x44, 0x55, 0x66, 0x77],
            [0x01, 0x23, 0x45, 0x67, 0x89, 0xab],
            some (str "10.0.0.7", str "7"), (str "255.255.255.255", str "9")⟩,
         ⟨[0x00, 0x11, 0x22, 0xaa, 0x44, 0xff], [0x01, 0x23, 0x45, 0x67, 0x89, 0xab],
            some (str "10.0.0.7", str "7"), (str "255.255.255.255", str "9")⟩] ∧
      (wakeHander (recordingEnv oneInterface) exampleRequest []).log.map Prod.snd =
        [none, some (str "invalid MAC address"), none] ∧
      (wakeHander (recordingEnv oneInterface) exampleRequest []).state =
        [⟨[0x00, 0x11, 0x22, 0x33, 0x44, 0x55], [0x01, 0x23, 0x45, 0x67, 0x89, 0xab],
            some (str "10.0.0.7", str "7"), (str "255.255.255.255", str "9")⟩,
         ⟨[0x00, 0x11, 0x22, 0xaa, 0x44, 0xff], [0x01, 0x23, 0x45, 0x67, 0x89, 0xab],
            some (str "10.0.0.7", str "7"), (str "255.255.255.255", str "9")⟩] :=
  have h := wakeHander_wakes_each_parsed_segment (recordingEnv oneInterface) exampleRequest
    [] exampleURL (str "eth0:7") [] (str "0123456789aB") (str "255.255.255.255", str "9")
    (some (str "10.0.0.7", str "7")) [0x01, 0x23, 0x45, 0x67, 0x89, 0xab]
    rfl (by decide) (by decide) (by decide) (by decide) (by decide) (by decide) (by decide)
  ⟨h.1.trans (by decide), h.2.1.trans (by decide), h.2.2.trans (by decide)⟩

/-- C8 at `exampleRequest`, where two of the three wake calls succeed, and at
`rejectedRequest`, whose password does not decode. -/
theorem wakeHander_body_reports_successes_witness :
    (wakeHander (recordingEnv oneInterface) exampleRequest []).body =
        str "👋 00:11:22:33:44:55\n👋 00:11:22:aa:44:ff\n" ∧
      ((wakeHander (recordingEnv oneInterface) rejectedRequest []).body = [] ∧
        (wakeHander (recordingEnv oneInterface) rejectedRequest []).state = []) :=
  ⟨((wakeHander_body_reports_successes (recordingEnv oneInterface) exampleRequest []).1
      exampleURL (str "eth0:7") [] (str "0123456789aB") (str "255.255.255.255", str "9")
      (some (str "10.0.0.7", str "7")) [0x01, 0x23, 0x45, 0x67, 0x89, 0xab]
      rfl (by decide) (by decide) (by decide) (by decide) (by decide) (by decide)
      (by decide)).trans (by decide),
    (wakeHander_body_reports_successes (recordingEnv oneInterface) rejectedRequest []).2
      (by
        rintro ⟨u, via, remote, pass, raddr, laddr, pw, hu, _, _, _, hpass, _, _, hpw⟩
        have hu' : some rejectedURL = some u := hu
        cases hu'
        have hp : parameter (rejectedURL.Query (str "pass")) = .ok (str "0123456789ag") := by
          decide
        rw [hp] at hpass
        cases hpass
        have hbad : password (str "0123456789ag") =
            .error (.failedToParsePassword (.InvalidByteError 0x67)) := by
          decide
        rw [hbad] at hpw
        cases hpw)⟩

/-- C4 at `plainRequest`, which has no `remote`, and at `remoteRequest`, which has one. -/
theorem wakeHander_remote_default_witness :
    ((wakeHander (testEnv oneInterface) plainRequest 0).calls =
        [⟨[0x00, 0x11, 0x22, 0x33, 0x44, 0x55], [], none, (str "255.255.255.255", str "9")⟩] ∧
      (testEnv oneInterface).ResolveUDPAddr (str "255.255.255.255:9") =
        .ok (str "255.255.255.255", str "9")) ∧
    ((wakeHander (testEnv oneInterface) remoteRequest 0).calls =
        [⟨[0x00, 0x11, 0x22, 0x33, 0x44, 0x55], [], none, (str "10.0.0.255", str "7")⟩] ∧
      (testEnv oneInterface).ResolveUDPAddr (str "10.0.0.255:7") =
        .ok (str "10.0.0.255", str "7")) :=
  ⟨⟨by decide,
      (wakeHander_remote_default (testEnv oneInterface) plainRequest 0 plainRequestURL rfl
        ⟨[0x00, 0x11, 0x22, 0x33, 0x44, 0x55], [], none, (str "255.255.255.255", str "9")⟩
        (by decide)).1 (Or.inl rfl)⟩,
    ⟨by decide,
      (wakeHander_remote_default (testEnv oneInterface) remoteRequest 0 remoteURL rfl
        ⟨[0x00, 0x11, 0x22, 0x33, 0x44, 0x55], [], none, (str "10.0.0.255", str "7")⟩
        (by decide)).2 (str "10.0.0.255:7") (by decide) (by decide)⟩⟩

/-- C3 at a password of 12 hex digits, at one with the letter `g`, and at one of 11
digits. -/
theorem password_twelve_hex_digits_witness :
    password (str "0123456789aB") = .ok [0x01, 0x23, 0x45, 0x67, 0x89, 0xab] ∧
      (∃ msg, password (str "0123456789ag") = .error msg) ∧
      (∃ msg, password (str "0123456789a") = .error msg) ∧
      (∀ c ∈ (wakeHander (testEnv oneInterface) exampleRequest 0).calls,
        c.pw = [0x01, 0x23, 0x45, 0x67, 0x89, 0xab]) ∧
      (main (testEnv oneInterface)
        ⟨none, none, some (str "0123456789ag"), [str "00:11:22:33:44:55"]⟩ 0).exit = 1 :=
  ⟨(((password_twelve_hex_digits (str "0123456789aB")).2.1 (by decide) (by decide)).1).trans
      (by decide),
    (password_twelve_hex_digits (str "0123456789ag")).2.2.1 (by decide) (by decide),
    (password_twelve_hex_digits (str "0123456789a")).2.2.1 (by decide) (by decide),
    ((password_twelve_hex_digits (str "0123456789aB")).2.2.2.1 _ _ (testEnv oneInterface)
      exampleRequest 0 exampleURL rfl (by decide)).2 _ (by decide),
    (((password_twelve_hex_digits (str "0123456789ag")).2.2.2.2 _ _ (testEnv oneInterface)
      ⟨none, none, some (str "0123456789ag"), [str "00:11:22:33:44:55"]⟩ 0 rfl).1
      (.failedToParsePassword (.InvalidByteError 0x67)) (by decide)).1⟩

/-- C5, as amended, on a machine whose `ip` reports the empty device name as unknown. -/
theorem route_without_via_witness :
    route (testEnv oneInterface) [] = ⟨[], none, [ipCommand []]⟩ ∧
      ∀ c ∈ (wakeHander (testEnv oneInterface) plainRequest 0).calls, c.laddr = none :=
  ⟨((route_without_via (testEnv oneInterface)).2 (str "exit status 1")
      (str "Cannot find device \"\"\n") (by decide) (by decide)).1,
    ((route_without_via (testEnv oneInterface)).2 (str "exit status 1")
      (str "Cannot find device \"\"\n") (by decide) (by decide)).2
      plainRequest 0 plainRequestURL rfl (by decide)⟩

/-- C5 as stated fails: for the empty `via`, `route` does run the routing command; with
an `ip` whose complaint is not captured it returns an error and the handler wakes
nothing, and with an `ip` that lists a route it returns a local address, with which the
wake call is made. -/
theorem route_without_via_counterexample :
    (route (testEnv quietIP) []).ran = [ipCommand []] ∧
      (route (testEnv quietIP) []).err = some (.ip (str "exit status 1")) ∧
      (wakeHander (testEnv quietIP) plainRequest 0).calls = [] ∧
      (route (testEnv everyDevice) []).ran = [ipCommand []] ∧
      (route (testEnv everyDevice) []).addr = str "10.0.0.7:0" ∧
      (wakeHander (testEnv everyDevice) plainRequest 0).calls =
        [⟨[0x00, 0x11, 0x22, 0x33, 0x44, 0x55], [], some (str "10.0.0.7", str "0"),
          (str "255.255.255.255", str "9")⟩] := by
  decide

/-- C6 at an address given as `via`, at an unknown device whose complaint is not
captured, and at a `via` with too many colons. -/
theorem route_unknown_device_witness :
    route (testEnv oneInterface) (str "10.0.0.9:7") =
        ⟨str "10.0.0.9:7", none, [ipCommand (str "10.0.0.9")]⟩ ∧
      route (testEnv quietIP) (str "wlan0") =
        ⟨[], some (.ip (str "exit status 1")), [ipCommand (str "wlan0")]⟩ ∧
      route (testEnv oneInterface) (str "a:b:9") =
        ⟨str "a:b:9", some (.splitHostPort (str "address a:b:9: too many colons in address")),
          []⟩ :=
  ⟨((route_unknown_device (testEnv oneInterface) (str "10.0.0.9:7")).1 (str "10.0.0.9")
      (str "7") (str "exit status 1") (str "Cannot find device \"10.0.0.9\"\n")
      (Or.inr ⟨by decide, by decide⟩) (by decide)).1 (by decide),
    ((route_unknown_device (testEnv quietIP) (str "wlan0")).1 (str "wlan0") []
      (str "exit status 1") [] (Or.inl ⟨by decide, rfl, rfl⟩) (by decide)).2 (by decide),
    (route_unknown_device (testEnv oneInterface) (str "a:b:9")).2 _ (by decide) (by decide)⟩

/-- C7 at `eth0:7` and `eth0`, whose route has a source address, and at `lo`, for which
`ip` prints nothing. -/
theorem route_source_address_witness :
    route (testEnv oneInterface) (str "eth0:7") =
        ⟨str "10.0.0.7:7", none, [ipCommand (str "eth0")]⟩ ∧
      route (testEnv oneInterface) (str "eth0") =
        ⟨str "10.0.0.7:0", none, [ipCommand (str "eth0")]⟩ ∧
      route (testEnv oneInterface) (str "lo") =
        ⟨[], some (.noSrcSelector []), [ipCommand (str "lo")]⟩ :=
  ⟨((route_source_address (testEnv oneInterface) (str "eth0:7") (str "eth0") (str "7")
      (Or.inr ⟨by decide, by decide⟩)
      (str "10.0.0.0/24 scope link src 10.0.0.7 metric 100 \n") (by decide)).1
      (str "10.0.0.0/24 scope link") (str "10.0.0.7 metric 100 \n") (by decide)
      (first_of_Index _ _ _ (by decide))).trans (by decide),
    ((route_source_address (testEnv oneInterface) (str "eth0") (str "eth0") []
      (Or.inl ⟨by decide, rfl, rfl⟩)
      (str "10.0.0.0/24 scope link src 10.0.0.7 metric 100 \n") (by decide)).1
      (str "10.0.0.0/24 scope link") (str "10.0.0.7 metric 100 \n") (by decide)
      (first_of_Index _ _ _ (by decide))).trans (by decide),
    (route_source_address (testEnv oneInterface) (str "lo") (str "lo") []
      (Or.inl ⟨by decide, rfl, rfl⟩) [] (by decide)).2 (by decide)⟩

/-- C2 fails on the code: `main` has no `continue` after a failed `net.ParseMAC`, so for
the argument `zz`, which does not parse, it still calls `wol.Wake`, with a nil address. -/
theorem main_wakes_unparsed_argument :
    (ParseMAC (str "zz")).2 ≠ none ∧
      (main (testEnv oneInterface)
        ⟨none, none, none, [str "00:11:22:33:44:55", str "zz"]⟩ 0).calls =
        [⟨[0x00, 0x11, 0x22, 0x33, 0x44, 0x55], [], none, (str "255.255.255.255", str "9")⟩,
         ⟨[], [], none, (str "255.255.255.255", str "9")⟩] ∧
      (wakeHander (testEnv oneInterface) ⟨str "/00:11:22:33:44:55,zz"⟩ 0).calls =
        [⟨[0x00, 0x11, 0x22, 0x33, 0x44, 0x55], [], none, (str "255.255.255.255", str "9")⟩] := by
  decide

/-! ## The models at work -/

/-- The models of the library functions on sample inputs. -/
theorem library_samples :
    Split (str "a,b,,c") (str ",") = [str "a", str "b", str "", str "c"] ∧
      Split (str "") (str ",") = [[]] ∧
      SplitN (str "10.0.0.7 metric 100") (str " ") 2 = [str "10.0.0.7", str "metric 100"] ∧
      Index (str "a src b src c") (str " src ") = 1 ∧
      Index (str "abc") (str " src ") = -1 ∧
      str "👋 " = [0xF0, 0x9F, 0x91, 0x8B, 0x20] ∧
      DecodeString (str "0123456789aB") = ([0x01, 0x23, 0x45, 0x67, 0x89, 0xab], none) ∧
      DecodeString (str "01g3") = ([0x01], some (.InvalidByteError 0x67)) ∧
      DecodeString (str "012") = ([0x01], some .ErrLength) ∧
      HardwareAddr.String [0, 0x11, 0x22, 0xaa, 0x44, 0xff] = str "00:11:22:aa:44:ff" := by
  decide

/-- The models of `net.ParseMAC` and `net.SplitHostPort` on sample inputs. -/
theorem net_samples :
    ParseMAC (str "00:11:22:33:44:55") = ([0, 0x11, 0x22, 0x33, 0x44, 0x55], none) ∧
      ParseMAC (str "00-11-22-33-44-55") = ([0, 0x11, 0x22, 0x33, 0x44, 0x55], none) ∧
      ParseMAC (str "0011.22AA.44ff") = ([0, 0x11, 0x22, 0xaa, 0x44, 0xff], none) ∧
      (ParseMAC (str "00:11:22:33:44:5g")).2 ≠ none ∧
      (ParseMAC (str "00:11:22:33:44")).2 ≠ none ∧
      (ParseMAC (str "00:11-22:33:44:55")).2 ≠ none ∧
      SplitHostPort (str "eth0:9") = .ok (str "eth0", str "9") ∧
      SplitHostPort (str "eth0:") = .ok (str "eth0", str "") ∧
      SplitHostPort (str "[::1]:9") = .ok (str "::1", str "9") ∧
      (SplitHostPort (str "a:b:9")).isOk = false := by
  decide

/-- One run of `wakeHander`: four segments, of which `zz` does not parse and the
eight-byte address is refused by the wake library. -/
theorem wakeHander_sample :
    (wakeHander (testEnv oneInterface) exampleRequest 0).body =
        str "👋 00:11:22:33:44:55\n👋 00:11:22:aa:44:ff\n" ∧
      (wakeHander (testEnv oneInterface) exampleRequest 0).state = 2 ∧
      (wakeHander (testEnv oneInterface) exampleRequest 0).ran = [ipCommand (str "eth0")] ∧
      (wakeHander (testEnv oneInterface) exampleRequest 0).log.map (fun c => c.2.isNone) =
        [true, false, true] := by
  decide

/-- The same run in a world that keeps the packets sent: the two packets carry the
addresses, the password and the local and remote address of the request. -/
theorem wakeHander_recording_sample :
    (wakeHander (recordingEnv oneInterface) exampleRequest []).state =
        [⟨[0x00, 0x11, 0x22, 0x33, 0x44, 0x55], [0x01, 0x23, 0x45, 0x67, 0x89, 0xab],
            some (str "10.0.0.7", str "7"), (str "255.255.255.255", str "9")⟩,
         ⟨[0x00, 0x11, 0x22, 0xaa, 0x44, 0xff], [0x01, 0x23, 0x45, 0x67, 0x89, 0xab],
            some (str "10.0.0.7", str "7"), (str "255.255.255.255", str "9")⟩] ∧
      (wakeHander (recordingEnv oneInterface) exampleRequest []).body =
        str "👋 00:11:22:33:44:55\n👋 00:11:22:aa:44:ff\n" ∧
      (wakeHander (recordingEnv oneInterface) rejectedRequest []).state = [] := by
  decide

end Wol
